import Mathlib

/-!
Verification development for the Chameleon game server.

The repository contains two variants of the same WebSocket server:
`src/server.js` (the simplified variant: the hint phase resolves
straight into voting and there is no accusation, chameleon-guess or
host-reset action) and `src/unnamed/part_000` (the richer variant with
an explicit `accusation` phase, a `chameleon_guess` phase and a
`host_reset` action).  Shared logic (room store, code generation,
joining, closing) is modelled once; the handlers that differ are
modelled in namespaces `S` (simplified, `src/server.js`) and `R`
(richer, `src/unnamed/part_000`).

JavaScript idioms are embedded as follows: objects used as maps
(`room.hints`, `room.votes`, the `rooms` Map) become association lists
in insertion order, with `key in map` assignment modelled by
`setAssoc` (overwrite in place, else append — matching JS key-order
semantics); `undefined`/absent values become `Option`; JS truthiness
of an optional string is `otruthy`; `Math.floor(Math.random()*n)` is
an explicit natural-number parameter reduced `% n`, so that round
setup is a deterministic function of its random inputs.
-/

namespace Chameleon

/-- JS truthiness of a possibly-missing string: `undefined`, absent
and `""` are falsy, every other string is truthy. -/
def otruthy : Option String → Bool
  | none => false
  | some s => s ≠ ""

/-- `m[k] = v` on a JS object: overwrite the entry in place if the key
exists (JS preserves key insertion order), else append. -/
def setAssoc (m : List (String × α)) (k : String) (v : α) : List (String × α) :=
  if m.any (fun kv => kv.1 == k) then
    m.map (fun kv => if kv.1 == k then (k, v) else kv)
  else
    m ++ [(k, v)]

/-- `m[k]` lookup on a JS object. -/
def getAssoc (m : List (String × α)) (k : String) : Option α :=
  (m.find? (fun kv => kv.1 == k)).map Prod.snd

/-- models `String.prototype.toLowerCase` (ASCII range, matching
`Char.toLower`). -/
def jsToLower (s : String) : String :=
  String.mk (s.toList.map Char.toLower)

/-- models `String.prototype.trim`: drop leading and trailing
whitespace. -/
def jsTrim (s : String) : String :=
  String.mk (((s.toList.dropWhile Char.isWhitespace).reverse.dropWhile Char.isWhitespace).reverse)

/-- models `String.prototype.slice(0, n)` for a nonnegative bound. -/
def jsTake (s : String) (n : Nat) : String :=
  String.mk (s.toList.take n)

-- --- Code generation (`makeCode`, identical in both files) ---

/-- the alphabet literal `'ABCDEFGHJKMNPQRSTUVWXYZ23456789'` of
`makeCode`. -/
def codeAlphabet : String := "ABCDEFGHJKMNPQRSTUVWXYZ23456789"

/-- the alphabet as a character list. -/
def codeChars : List Char := codeAlphabet.toList

/-- `makeCode(len)`: `len` characters, each
`chars[Math.floor(Math.random()*chars.length)]`; the random draws are
the explicit function `rnd` (position ↦ draw), reduced modulo the
alphabet size. -/
def makeCode (rnd : Nat → Nat) (len : Nat) : String :=
  String.mk ((List.range len).map (fun i => codeChars.getD (rnd i % codeChars.length) 'A'))

-- --- Data model ---

/-- a player record `{id, ws, name, ready}`; the `ws` reference is
identified with `id` (the server sets `id = ws.id`). -/
structure Player where
  id : String
  name : String
  ready : Bool
deriving DecidableEq

/-- a grid coordinate `{r, c}`. -/
structure Coord where
  r : Nat
  c : Nat
deriving DecidableEq

/-- a category card `{name, grid}`. -/
structure Category where
  name : String
  grid : List (List String)
deriving DecidableEq

/-- a room record as built by `createRoom` (the informational
`created: Date.now()` timestamp is not modelled). -/
structure Room where
  code : String
  players : List Player
  hostWs : Option String
  state : String
  capacity : Nat
  minPlayers : Nat
  category : Option Category
  grid : Option (List (List String))
  coord : Option Coord
  chameleonId : Option String
  hints : List (String × String)
  votes : List (String × String)
  accusations : List (String × String)
deriving DecidableEq

/-- the per-connection fields the server attaches to a socket:
`ws.id`, `ws.roomCode`, `ws.role`. -/
structure Conn where
  id : String
  roomCode : Option String
  role : Option String
deriving DecidableEq

/-- the room store: the process-wide `rooms` Map, as an association
list in insertion order. -/
abbrev Rooms := List (String × Room)

/-- `rooms.get(code)`. -/
def getRoom (rs : Rooms) (code : String) : Option Room :=
  (rs.find? (fun kv => kv.1 == code)).map Prod.snd

/-- `rooms.has(code)`. -/
def hasRoom (rs : Rooms) (code : String) : Bool :=
  rs.any (fun kv => kv.1 == code)

/-- `rooms.set(code, room)`. -/
def setRoom (rs : Rooms) (code : String) (r : Room) : Rooms :=
  setAssoc rs code r

/-- `rooms.delete(code)`. -/
def delRoom (rs : Rooms) (code : String) : Rooms :=
  rs.filter (fun kv => kv.1 != code)

-- --- Outbound messages ---

/-- the public view `getPublicRoomState(room)`. -/
structure PublicRoomState where
  code : String
  players : List (String × String)
  state : String
  category : Option String
  playerCount : Nat
deriving DecidableEq

/-- the outbound message envelopes the server produces; each
constructor is one `type` with its `data` fields.  A `game_start_player`
message is split by its `role` field into `gameStartChameleon` and
`gameStartPlayer`.  In `roundResult`, `none` stands for a field that is
absent or `null` in the JS payload. -/
inductive OutMsg where
  | connected (id : String)
  | errorMsg (tag : String)
  | roomCreated (code : String)
  | roomUpdate (pub : PublicRoomState)
  | gameStartChameleon
  | gameStartPlayer (coord : Coord) (grid : List (List String)) (category : String)
  | gameStartHost (coord : Coord) (grid : List (List String)) (category : String) (chameleonId : Option String)
  | hintProgress (submitted : Nat) (total : Nat)
  | hintsRevealed (hints : List (String × String))
  | votingStart (accusedId : String)
  | voteProgress (submitted : Nat) (total : Nat)
  | chameleonCaught (accusedId : String) (chameleonId : Option String)
  | roundResult (success : Bool) (reason : Option String) (guess : Option String)
      (secretWord : Option String) (chameleonId : Option String) (accusedId : Option String)
  | roomClosed
deriving DecidableEq

/-- a delivered message: recipient connection id paired with the
envelope. -/
abbrev Out := String × OutMsg

/-- `broadcast(clients, ...)`: one serialized message to each client. -/
def broadcastTo (cs : List String) (m : OutMsg) : List Out :=
  cs.map (fun c => (c, m))

/-- the recipient list `room.players.map(p=>p.ws).concat(room.hostWs?[room.hostWs]:[])`. -/
def clientsOf (room : Room) : List String :=
  room.players.map Player.id ++ room.hostWs.toList

/-- `getPublicRoomState(room)`. -/
def getPublicRoomState (room : Room) : PublicRoomState :=
  { code := room.code
  , players := room.players.map (fun p => (p.id, p.name))
  , state := room.state
  , category := room.category.map Category.name
  , playerCount := room.players.length }

/-- `room.grid[room.coord.r][room.coord.c]`; the defaults are never hit
in states where the server evaluates this expression (grid and coord
are set together at round start). -/
def secretWordOf (room : Room) : String :=
  let cd := room.coord.getD ⟨0, 0⟩
  ((room.grid.getD []).getD cd.r []).getD cd.c ""

-- --- Word bank (`CATEGORIES`, identical in both files) ---

/-- the fixed category set. -/
def CATEGORIES : List Category :=
  [ { name := "Fruits"
    , grid := [["Apple","Banana","Cherry","Date"],["Fig","Grape","Lemon","Mango"],
               ["Orange","Papaya","Pear","Quince"],["Kiwi","Lychee","Melon","Plum"]] }
  , { name := "Animals"
    , grid := [["Cat","Dog","Horse","Cow"],["Sheep","Pig","Goat","Deer"],
               ["Lion","Tiger","Bear","Wolf"],["Rabbit","Fox","Otter","Whale"]] }
  , { name := "Things at School"
    , grid := [["Desk","Chair","Book","Pen"],["Ruler","Map","Clock","Bell"],
               ["Laptop","Teacher","Board","Locker"],["Bus","Uniform","Exam","Class"]] } ]

/-- default used with `List.getD`; out-of-range indexing never occurs
where the server indexes (`Math.floor(Math.random()*n) < n`). -/
def defaultCategory : Category := { name := "", grid := [] }

/-- default player for `List.getD`; never hit where the server
indexes, see `defaultCategory`. -/
def defaultPlayer : Player := { id := "", name := "", ready := false }

-- --- Room creation (`createRoom`, identical in both files) ---

/-- the fresh lobby room literal built inside `createRoom`. -/
def newRoom (code : String) : Room :=
  { code := code, players := [], hostWs := none, state := "lobby"
  , capacity := 8, minPlayers := 3, category := none, grid := none
  , coord := none, chameleonId := none, hints := [], votes := [], accusations := [] }

/-- `createRoom()`: `let code = makeCode(); while (rooms.has(code))
code = makeCode();` then insert the new room.  The successive random
draws of the retry loop are the explicit list `rnds` (one draw
function per attempt); the loop is the first candidate absent from the
store, `none` when every supplied candidate collides (the JS loop
would keep drawing). -/
def createRoom (rnds : List (Nat → Nat)) (rooms : Rooms) : Option (Room × Rooms) :=
  match (rnds.map (fun f => makeCode f 4)).find? (fun c => !(hasRoom rooms c)) with
  | none => none
  | some code => some (newRoom code, setRoom rooms code (newRoom code))

-- --- `create_room` handler (identical in both files) ---

/-- `case 'create_room'`: create a room, make this connection its
host, bind `ws.roomCode`/`ws.role`, reply `room_created`. -/
def handleCreate (rooms : Rooms) (ws : Conn) (rnds : List (Nat → Nat)) :
    Option (Rooms × Conn × List Out) :=
  match createRoom rnds rooms with
  | none => none
  | some (room, rooms1) =>
    let room1 := { room with hostWs := some ws.id }
    some ( setRoom rooms1 room1.code room1
         , { ws with roomCode := some room1.code, role := some "host" }
         , [(ws.id, OutMsg.roomCreated room1.code)] )

-- --- `join_room` handler (identical logic and error tags in both files) ---

/-- `case 'join_room'`: guards missing fields, unknown room, a full
room and a started game, then appends the player (name truncated to 20
characters) and broadcasts `room_update` to players and host. -/
def handleJoin (rooms : Rooms) (ws : Conn) (code name : Option String) :
    Rooms × Conn × List Out :=
  if !(otruthy code) || !(otruthy name) then
    (rooms, ws, [(ws.id, OutMsg.errorMsg "missing_code_or_name")])
  else
    let c := code.getD ""
    match getRoom rooms c with
    | none => (rooms, ws, [(ws.id, OutMsg.errorMsg "room_not_found")])
    | some room =>
      if room.players.length ≥ room.capacity then
        (rooms, ws, [(ws.id, OutMsg.errorMsg "room_full")])
      else if room.state != "lobby" then
        (rooms, ws, [(ws.id, OutMsg.errorMsg "game_already_started")])
      else
        let player : Player := { id := ws.id, name := jsTake (name.getD "") 20, ready := false }
        let room1 := { room with players := room.players ++ [player] }
        ( setRoom rooms c room1
        , { ws with roomCode := some c, role := some "player" }
        , broadcastTo (clientsOf room1) (OutMsg.roomUpdate (getPublicRoomState room1)) )

-- --- Tallying (`vote` resolution, identical fold in both files) ---

/-- one step of the highest/winners fold:
`if (count > highest) { highest = count; winners = [id]; }
else if (count === highest) winners.push(id);`. -/
def winStep (hw : Nat × List String) (idc : String × Nat) : Nat × List String :=
  if idc.2 > hw.1 then (idc.2, [idc.1])
  else if idc.2 == hw.1 then (hw.1, hw.2 ++ [idc.1])
  else hw

/-- the `(highest, winners)` pair computed by the resolution fold over
the tally entries. -/
def winnersOf (t : List (String × Nat)) : Nat × List String :=
  t.foldl winStep (0, [])

/-- `tally[t] = (tally[t] || 0) + 1` folded over the vote values. -/
def tallyOf (votes : List (String × String)) : List (String × Nat) :=
  votes.foldl (fun t kv => setAssoc t kv.2 ((getAssoc t kv.2).getD 0 + 1)) []

/-- the maximum count reached, starting a running maximum at `h`
(the resolution fold starts it at `0`). -/
def maxFrom (h : Nat) (t : List (String × Nat)) : Nat :=
  t.foldl (fun m kv => max m kv.2) h

/-- the maximum tally count. -/
def maxCount (t : List (String × Nat)) : Nat := maxFrom 0 t

/-- the identities achieving the maximum tally count, in entry
order. -/
def achievers (t : List (String × Nat)) : List String :=
  (t.filter (fun kv => kv.2 == maxCount t)).map Prod.fst

/-- the accused identity of the richer variant's resolution:
`room.accusations.length ? room.accusations[0].accusedId
: (winners.length === 1 ? winners[0] : null)`. -/
def resolveAccused (accusations : List (String × String)) (votes : List (String × String)) :
    Option String :=
  if accusations.length != 0 then some ((accusations.headD ("", "")).2)
  else
    let ws := (winnersOf (tallyOf votes)).2
    if ws.length == 1 then ws.head? else none

-- --- Richer variant (`src/unnamed/part_000`) ---

namespace R

/-- `case 'host_start_game'` of the richer variant: guarded by room
existence, host identity and the minimum player count; picks category,
coordinate and chameleon from the explicit random draws, resets the
round maps, moves to the `hint` phase and fans out the role-asymmetric
start messages followed by a `room_update` broadcast. -/
def handleHostStart (rooms : Rooms) (ws : Conn) (catIdx rIdx cIdx chamIdx : Nat) :
    Rooms × List Out :=
  match ws.roomCode with
  | none => (rooms, [(ws.id, OutMsg.errorMsg "room_not_found")])
  | some code =>
  match getRoom rooms code with
  | none => (rooms, [(ws.id, OutMsg.errorMsg "room_not_found")])
  | some room =>
    if room.hostWs != some ws.id then (rooms, [(ws.id, OutMsg.errorMsg "not_host")])
    else if room.players.length < room.minPlayers then
      (rooms, [(ws.id, OutMsg.errorMsg "not_enough_players")])
    else
      let category := CATEGORIES.getD (catIdx % CATEGORIES.length) defaultCategory
      let r := rIdx % 4
      let c := cIdx % 4
      let chameleonId := (room.players.getD (chamIdx % room.players.length) defaultPlayer).id
      let room1 := { room with
        category := some category, grid := some category.grid,
        coord := some ⟨r, c⟩, chameleonId := some chameleonId,
        state := "hint", hints := [], votes := [], accusations := [] }
      let personal := room1.players.map (fun p =>
        if p.id == chameleonId then (p.id, OutMsg.gameStartChameleon)
        else (p.id, OutMsg.gameStartPlayer ⟨r, c⟩ category.grid category.name))
      let hostMsg := match room1.hostWs with
        | none => ([] : List Out)
        | some h => [(h, OutMsg.gameStartHost ⟨r, c⟩ category.grid category.name (some chameleonId))]
      ( setRoom rooms code room1
      , personal ++ hostMsg
          ++ broadcastTo (clientsOf room1) (OutMsg.roomUpdate (getPublicRoomState room1)) )

/-- `case 'submit_hint'` of the richer variant: requires the `hint`
phase and a truthy string of at most 50 characters, records the hint
(overwriting a resubmission), and on the last hint moves to the
`accusation` phase revealing all hints. -/
def handleSubmitHint (rooms : Rooms) (ws : Conn) (hint : Option String) : Rooms × List Out :=
  match ws.roomCode with
  | none => (rooms, [(ws.id, OutMsg.errorMsg "room_not_found")])
  | some code =>
  match getRoom rooms code with
  | none => (rooms, [(ws.id, OutMsg.errorMsg "room_not_found")])
  | some room =>
    if room.state != "hint" then (rooms, [(ws.id, OutMsg.errorMsg "not_in_hint_phase")])
    else if !(otruthy hint) || (hint.getD "").length > 50 then
      (rooms, [(ws.id, OutMsg.errorMsg "invalid_hint")])
    else
      let room1 := { room with hints := setAssoc room.hints ws.id (jsTake (hint.getD "") 50) }
      if room1.hints.length == room1.players.length then
        let room2 := { room1 with state := "accusation" }
        ( setRoom rooms code room2
        , broadcastTo (clientsOf room2) (OutMsg.hintsRevealed room2.hints)
            ++ broadcastTo (clientsOf room2) (OutMsg.roomUpdate (getPublicRoomState room2)) )
      else
        ( setRoom rooms code room1
        , broadcastTo (clientsOf room1)
            (OutMsg.hintProgress room1.hints.length room1.players.length) )

/-- `case 'accuse'`: requires the `accusation` phase and a truthy
target, appends the accusation, resets `votes` and moves to the
`voting` phase. -/
def handleAccuse (rooms : Rooms) (ws : Conn) (accusedId : Option String) : Rooms × List Out :=
  match ws.roomCode with
  | none => (rooms, [(ws.id, OutMsg.errorMsg "room_not_found")])
  | some code =>
  match getRoom rooms code with
  | none => (rooms, [(ws.id, OutMsg.errorMsg "room_not_found")])
  | some room =>
    if room.state != "accusation" then
      (rooms, [(ws.id, OutMsg.errorMsg "not_in_accusation_phase")])
    else if !(otruthy accusedId) then (rooms, [(ws.id, OutMsg.errorMsg "missing_accused")])
    else
      let a := accusedId.getD ""
      let room1 := { room with
        accusations := room.accusations ++ [(ws.id, a)],
        state := "voting", votes := [] }
      ( setRoom rooms code room1
      , broadcastTo (clientsOf room1) (OutMsg.votingStart a)
          ++ broadcastTo (clientsOf room1) (OutMsg.roomUpdate (getPublicRoomState room1)) )

/-- `case 'vote'` of the richer variant: requires the `voting` phase
and a truthy target, records the vote, and once every player has voted
resolves: first-accusation target if any, else the unique tally
winner, else no consensus; a caught chameleon moves the room to the
`chameleon_guess` phase, every other outcome finishes the round. -/
def handleVote (rooms : Rooms) (ws : Conn) (targetId : Option String) : Rooms × List Out :=
  match ws.roomCode with
  | none => (rooms, [(ws.id, OutMsg.errorMsg "room_not_found")])
  | some code =>
  match getRoom rooms code with
  | none => (rooms, [(ws.id, OutMsg.errorMsg "room_not_found")])
  | some room =>
    if room.state != "voting" then (rooms, [(ws.id, OutMsg.errorMsg "not_in_voting_phase")])
    else if !(otruthy targetId) then (rooms, [(ws.id, OutMsg.errorMsg "missing_vote_target")])
    else
      let room1 := { room with votes := setAssoc room.votes ws.id (targetId.getD "") }
      if room1.votes.length == room1.players.length then
        let accusedId := resolveAccused room1.accusations room1.votes
        if !(otruthy accusedId) then
          let secretWord := secretWordOf room1
          let room2 := { room1 with state := "finished" }
          let clients := clientsOf room1
          ( setRoom rooms code room2
          , broadcastTo clients (OutMsg.roundResult false (some "no_consensus") none
                (some secretWord) room1.chameleonId none)
              ++ broadcastTo clients (OutMsg.roomUpdate (getPublicRoomState room2)) )
        else
          let a := accusedId.getD ""
          let isChameleon := room1.chameleonId == some a
          let secretWord := secretWordOf room1
          if isChameleon then
            let room2 := { room1 with state := "chameleon_guess" }
            let clients := clientsOf room2
            ( setRoom rooms code room2
            , broadcastTo clients (OutMsg.chameleonCaught a room2.chameleonId)
                ++ broadcastTo clients (OutMsg.roomUpdate (getPublicRoomState room2)) )
          else
            let room2 := { room1 with state := "finished" }
            let clients := clientsOf room2
            ( setRoom rooms code room2
            , broadcastTo clients (OutMsg.roundResult false (some "wrong_accusation") none
                  (some secretWord) room1.chameleonId (some a))
                ++ broadcastTo clients (OutMsg.roomUpdate (getPublicRoomState room2)) )
      else
        ( setRoom rooms code room1
        , broadcastTo (clientsOf room1)
            (OutMsg.voteProgress room1.votes.length room1.players.length) )

/-- `case 'chameleon_guess'`: requires the `chameleon_guess` phase and
the chameleon as sender; a truthy guess whose lowercased, trimmed text
equals the lowercased secret word flips the outcome to an impostor win
(`success: false`), anything else finalizes a group win. -/
def handleChamGuess (rooms : Rooms) (ws : Conn) (guess : Option String) : Rooms × List Out :=
  match ws.roomCode with
  | none => (rooms, [(ws.id, OutMsg.errorMsg "room_not_found")])
  | some code =>
  match getRoom rooms code with
  | none => (rooms, [(ws.id, OutMsg.errorMsg "room_not_found")])
  | some room =>
    if room.state != "chameleon_guess" then
      (rooms, [(ws.id, OutMsg.errorMsg "not_in_chameleon_guess_phase")])
    else if room.chameleonId != some ws.id then
      (rooms, [(ws.id, OutMsg.errorMsg "not_chameleon")])
    else
      let secretWord := secretWordOf room
      let correct := otruthy guess && (jsTrim (jsToLower (guess.getD "")) == jsToLower secretWord)
      let room1 := { room with state := "finished" }
      let clients := clientsOf room
      if correct then
        ( setRoom rooms code room1
        , broadcastTo clients (OutMsg.roundResult false (some "chameleon_guessed") guess
              (some secretWord) room.chameleonId none)
            ++ broadcastTo clients (OutMsg.roomUpdate (getPublicRoomState room1)) )
      else
        ( setRoom rooms code room1
        , broadcastTo clients (OutMsg.roundResult true (some "chameleon_failed") guess
              (some secretWord) room.chameleonId none)
            ++ broadcastTo clients (OutMsg.roomUpdate (getPublicRoomState room1)) )

/-- `case 'host_reset'`: host-only, no phase guard; clears the round
state, returns to the lobby and keeps the players. -/
def handleHostReset (rooms : Rooms) (ws : Conn) : Rooms × List Out :=
  match ws.roomCode with
  | none => (rooms, [(ws.id, OutMsg.errorMsg "room_not_found")])
  | some code =>
  match getRoom rooms code with
  | none => (rooms, [(ws.id, OutMsg.errorMsg "room_not_found")])
  | some room =>
    if room.hostWs != some ws.id then (rooms, [(ws.id, OutMsg.errorMsg "not_host")])
    else
      let room1 := { room with
        state := "lobby", category := none, grid := none,
        coord := none, chameleonId := none,
        hints := [], votes := [], accusations := [] }
      ( setRoom rooms code room1
      , broadcastTo (clientsOf room1) (OutMsg.roomUpdate (getPublicRoomState room1)) )

/-- `ws.on('close')` of the richer variant: a closing host notifies
every player with `room_closed` and deletes the room; a closing player
is filtered out, the survivors (players and host) get a `room_update`,
and an empty recipient set deletes the room. -/
def handleClose (rooms : Rooms) (ws : Conn) : Rooms × List Out :=
  match ws.roomCode with
  | none => (rooms, [])
  | some code =>
    match getRoom rooms code with
    | none => (rooms, [])
    | some room =>
      if room.hostWs == some ws.id then
        (delRoom rooms code, room.players.map (fun p => (p.id, OutMsg.roomClosed)))
      else
        let room1 := { room with players := room.players.filter (fun p => p.id != ws.id) }
        let clients := clientsOf room1
        if clients.length != 0 then
          (setRoom rooms code room1, broadcastTo clients (OutMsg.roomUpdate (getPublicRoomState room1)))
        else (delRoom rooms code, [])

end R

-- --- Simplified variant (`src/server.js`) ---

namespace S

/-- `case 'host_start_game'` of the simplified variant: the combined
guard `!room || ws !== room.hostWs` yields the single error
`not_host_or_room`; the effects are the same as the richer variant's
handler. -/
def handleHostStart (rooms : Rooms) (ws : Conn) (catIdx rIdx cIdx chamIdx : Nat) :
    Rooms × List Out :=
  match ws.roomCode with
  | none => (rooms, [(ws.id, OutMsg.errorMsg "not_host_or_room")])
  | some code =>
  match getRoom rooms code with
  | none => (rooms, [(ws.id, OutMsg.errorMsg "not_host_or_room")])
  | some room =>
    if room.hostWs != some ws.id then (rooms, [(ws.id, OutMsg.errorMsg "not_host_or_room")])
    else if room.players.length < room.minPlayers then
      (rooms, [(ws.id, OutMsg.errorMsg "not_enough_players")])
    else
      let category := CATEGORIES.getD (catIdx % CATEGORIES.length) defaultCategory
      let r := rIdx % 4
      let c := cIdx % 4
      let chameleonId := (room.players.getD (chamIdx % room.players.length) defaultPlayer).id
      let room1 := { room with
        category := some category, grid := some category.grid,
        coord := some ⟨r, c⟩, chameleonId := some chameleonId,
        state := "hint", hints := [], votes := [], accusations := [] }
      let personal := room1.players.map (fun p =>
        if p.id == chameleonId then (p.id, OutMsg.gameStartChameleon)
        else (p.id, OutMsg.gameStartPlayer ⟨r, c⟩ category.grid category.name))
      let hostMsg := match room1.hostWs with
        | none => ([] : List Out)
        | some h => [(h, OutMsg.gameStartHost ⟨r, c⟩ category.grid category.name (some chameleonId))]
      ( setRoom rooms code room1
      , personal ++ hostMsg
          ++ broadcastTo (clientsOf room1) (OutMsg.roomUpdate (getPublicRoomState room1)) )

/-- `case 'submit_hint'` of the simplified variant: the room/phase
guard is the single check `!room || room.state !== 'hint'`; the hint
is only checked for truthiness and string-ness — there is no
50-character rejection, the stored value is `hint.slice(0,50)`; the
last hint moves straight to the `voting` phase. -/
def handleSubmitHint (rooms : Rooms) (ws : Conn) (hint : Option String) : Rooms × List Out :=
  match ws.roomCode with
  | none => (rooms, [(ws.id, OutMsg.errorMsg "not_in_hint")])
  | some code =>
  match getRoom rooms code with
  | none => (rooms, [(ws.id, OutMsg.errorMsg "not_in_hint")])
  | some room =>
    if room.state != "hint" then (rooms, [(ws.id, OutMsg.errorMsg "not_in_hint")])
    else if !(otruthy hint) then (rooms, [(ws.id, OutMsg.errorMsg "invalid_hint")])
    else
      let room1 := { room with hints := setAssoc room.hints ws.id (jsTake (hint.getD "") 50) }
      if room1.hints.length == room1.players.length then
        let room2 := { room1 with state := "voting" }
        ( setRoom rooms code room2
        , broadcastTo (clientsOf room2) (OutMsg.hintsRevealed room2.hints)
            ++ broadcastTo (clientsOf room2) (OutMsg.roomUpdate (getPublicRoomState room2)) )
      else
        ( setRoom rooms code room1
        , broadcastTo (clientsOf room1)
            (OutMsg.hintProgress room1.hints.length room1.players.length) )

/-- `case 'vote'` of the simplified variant: the guard is the single
check `!room || room.state !== 'voting'` and the target is stored with
no validation at all (an absent `targetId` is stored as `undefined`,
which the tally would coerce to the property key `"undefined"` —
modelled by storing that string).  Once every player has voted the
tally winners are computed; the accused is the unique winner or
`null`, and `success` is strict equality of accused and chameleon. -/
def handleVote (rooms : Rooms) (ws : Conn) (targetId : Option String) : Rooms × List Out :=
  match ws.roomCode with
  | none => (rooms, [(ws.id, OutMsg.errorMsg "not_in_voting")])
  | some code =>
  match getRoom rooms code with
  | none => (rooms, [(ws.id, OutMsg.errorMsg "not_in_voting")])
  | some room =>
    if room.state != "voting" then (rooms, [(ws.id, OutMsg.errorMsg "not_in_voting")])
    else
      let room1 := { room with votes := setAssoc room.votes ws.id (targetId.getD "undefined") }
      if room1.votes.length == room1.players.length then
        let winners := (winnersOf (tallyOf room1.votes)).2
        let accusedId : Option String := if winners.length == 1 then winners.head? else none
        let secretWord := secretWordOf room1
        let success := accusedId == room1.chameleonId
        let clients := clientsOf room1
        let room2 := { room1 with state := "finished" }
        ( setRoom rooms code room2
        , broadcastTo clients (OutMsg.roundResult success none none (some secretWord)
              room1.chameleonId accusedId)
            ++ broadcastTo clients (OutMsg.roomUpdate (getPublicRoomState room2)) )
      else
        ( setRoom rooms code room1
        , broadcastTo (clientsOf room1)
            (OutMsg.voteProgress room1.votes.length room1.players.length) )

/-- `ws.on('close')` of the simplified variant: identical to the
richer variant's handler except that the survivors' `room_update`
recipient list is `room.players.map(p=>p.ws)` without the host, so a
room whose last player leaves is deleted even while its host is
connected. -/
def handleClose (rooms : Rooms) (ws : Conn) : Rooms × List Out :=
  match ws.roomCode with
  | none => (rooms, [])
  | some code =>
    match getRoom rooms code with
    | none => (rooms, [])
    | some room =>
      if room.hostWs == some ws.id then
        (delRoom rooms code, room.players.map (fun p => (p.id, OutMsg.roomClosed)))
      else
        let room1 := { room with players := room.players.filter (fun p => p.id != ws.id) }
        let clients := room1.players.map Player.id
        if clients.length != 0 then
          (setRoom rooms code room1, broadcastTo clients (OutMsg.roomUpdate (getPublicRoomState room1)))
        else (delRoom rooms code, [])

end S


-- --- Lemmas about the store and the tally fold ---

theorem find?_map_invariant (f : α → α) (p : α → Bool) (l : List α)
    (hp : ∀ a, p (f a) = p a) (hf : ∀ a, p a = true → f a = a) :
    (l.map f).find? p = l.find? p := by
  induction l with
  | nil => rfl
  | cons a t ih =>
    rw [List.map_cons]
    by_cases h : p a = true
    · rw [List.find?_cons_of_pos (List.map f t) (by rw [hp a]; exact h),
        List.find?_cons_of_pos t h, hf a h]
    · rw [List.find?_cons_of_neg (List.map f t) (by rw [hp a]; simpa using h),
        List.find?_cons_of_neg t (by simpa using h), ih]

theorem getAssoc_setAssoc_self (m : List (String × α)) (k : String) (v : α) :
    getAssoc (setAssoc m k v) k = some v := by
  unfold setAssoc
  by_cases h : m.any (fun kv => kv.1 == k) = true
  · rw [if_pos h]
    induction m with
    | nil => simp at h
    | cons a t ih =>
      rw [List.map_cons]
      by_cases ha : (a.1 == k) = true
      · rw [if_pos ha]
        unfold getAssoc
        rw [List.find?_cons_of_pos _ (by simp)]
        rfl
      · rw [if_neg ha]
        unfold getAssoc
        rw [List.find?_cons_of_neg _ (by simpa using ha)]
        have ht : t.any (fun kv => kv.1 == k) = true := by
          rcases List.any_eq_true.mp h with ⟨kv, hmem, hkv⟩
          rcases List.mem_cons.mp hmem with heq | hmem2
          · exact absurd (heq ▸ hkv) (by simpa using ha)
          · exact List.any_eq_true.mpr ⟨kv, hmem2, hkv⟩
        exact ih ht
  · rw [if_neg h]
    unfold getAssoc
    rw [List.find?_append]
    have hnone : m.find? (fun kv => kv.1 == k) = none := by
      rw [List.find?_eq_none]
      intro kv hkv hpkv
      exact h (List.any_eq_true.mpr ⟨kv, hkv, hpkv⟩)
    rw [hnone]
    simp

theorem getAssoc_setAssoc_ne (m : List (String × α)) (k k' : String) (v : α)
    (hne : k' ≠ k) :
    getAssoc (setAssoc m k v) k' = getAssoc m k' := by
  unfold setAssoc
  by_cases h : m.any (fun kv => kv.1 == k) = true
  · rw [if_pos h]
    unfold getAssoc
    rw [find?_map_invariant]
    · intro a
      by_cases hak : (a.1 == k) = true
      · rw [if_pos hak]
        have : a.1 = k := by simpa using hak
        simp [this]
      · rw [if_neg hak]
    · intro a hp
      have ha : a.1 = k' := by simpa using hp
      rw [if_neg (by simp [ha]; exact fun hh => hne hh)]
  · rw [if_neg h]
    unfold getAssoc
    rw [List.find?_append]
    have : List.find? (fun kv => kv.1 == k') [(k, v)] = none := by
      simp [hne, Ne.symm hne]
    rw [this]
    simp

theorem getRoom_eq_getAssoc (rs : Rooms) (c : String) : getRoom rs c = getAssoc rs c := rfl

theorem getRoom_setRoom_self (rs : Rooms) (c : String) (r : Room) :
    getRoom (setRoom rs c r) c = some r :=
  getAssoc_setAssoc_self rs c r

theorem getRoom_setRoom_ne (rs : Rooms) (c c' : String) (r : Room) (h : c' ≠ c) :
    getRoom (setRoom rs c r) c' = getRoom rs c' :=
  getAssoc_setAssoc_ne rs c c' r h

theorem hasRoom_delRoom_self (rs : Rooms) (c : String) :
    hasRoom (delRoom rs c) c = false := by
  unfold hasRoom delRoom
  rw [Bool.eq_false_iff]
  intro h
  rcases List.any_eq_true.mp h with ⟨kv, hmem, hkv⟩
  have := List.mem_filter.mp hmem
  rw [(show kv.1 = c by simpa using hkv)] at this
  simp at this

theorem getRoom_delRoom_ne (rs : Rooms) (c c' : String) (h : c' ≠ c) :
    getRoom (delRoom rs c) c' = getRoom rs c' := by
  unfold getRoom delRoom
  congr 1
  induction rs with
  | nil => rfl
  | cons a t ih =>
    rw [List.filter_cons]
    by_cases hac : (a.1 != c) = true
    · rw [if_pos hac]
      rcases Bool.eq_false_or_eq_true (a.1 == c') with hp | hp <;>
        simp only [List.find?, hp]
      exact ih
    · rw [if_neg hac]
      have haceq : a.1 = c := by simpa [bne] using hac
      have hp : (a.1 == c') = false := by simp [haceq, Ne.symm h]
      simp only [List.find?, hp]
      exact ih

theorem hasRoom_of_getRoom (rs : Rooms) (c : String) (r : Room)
    (h : getRoom rs c = some r) : hasRoom rs c = true := by
  unfold getRoom at h
  unfold hasRoom
  rcases Option.map_eq_some'.mp h with ⟨kv, hfind, _⟩
  have hmem := List.mem_of_find?_eq_some hfind
  have hpkv := List.find?_some hfind
  exact List.any_eq_true.mpr ⟨kv, hmem, hpkv⟩

theorem getD_mem_of_lt {α : Type} (l : List α) (n : Nat) (d : α) (h : n < l.length) :
    l.getD n d ∈ l := by
  induction l generalizing n with
  | nil => simp at h
  | cons a t ih =>
    cases n with
    | zero => simp
    | succ m =>
      simp only [List.getD_cons_succ]
      exact List.mem_cons_of_mem a (ih m (by simpa using h))

theorem le_maxFrom (t : List (String × Nat)) : ∀ h, h ≤ maxFrom h t := by
  induction t with
  | nil => intro h; exact Nat.le_refl h
  | cons x t ih =>
    intro h
    calc h ≤ max h x.2 := Nat.le_max_left h x.2
    _ ≤ maxFrom (max h x.2) t := ih (max h x.2)

theorem foldl_winStep_eq (t : List (String × Nat)) :
    ∀ h w, t.foldl winStep (h, w) =
      (maxFrom h t,
       (if maxFrom h t = h then w else [])
         ++ (t.filter (fun kv => kv.2 == maxFrom h t)).map Prod.fst) := by
  induction t with
  | nil =>
    intro h w
    simp [maxFrom]
  | cons x t ih =>
    intro h w
    have hM : maxFrom h (x :: t) = maxFrom (max h x.2) t := rfl
    rcases Nat.lt_trichotomy h x.2 with h1 | h1 | h1
    · have hmax : max h x.2 = x.2 := Nat.max_eq_right (Nat.le_of_lt h1)
      have hws : (x :: t).foldl winStep (h, w) = t.foldl winStep (x.2, [x.1]) := by
        rw [List.foldl_cons]
        congr 1
        unfold winStep
        rw [if_pos (show x.2 > h from h1)]
      rw [hws, ih]
      have hMeq : maxFrom h (x :: t) = maxFrom x.2 t := by rw [hM, hmax]
      rw [hMeq]
      have hge : x.2 ≤ maxFrom x.2 t := le_maxFrom t x.2
      have hne : maxFrom x.2 t ≠ h := by omega
      rw [if_neg hne, List.filter_cons]
      by_cases h2 : maxFrom x.2 t = x.2
      · rw [if_pos h2,
          if_pos (show (x.2 == maxFrom x.2 t) = true by simp [h2])]
        simp
      · rw [if_neg h2,
          if_neg (show ¬((x.2 == maxFrom x.2 t) = true) by simp; omega)]
    · have hmax : max h x.2 = h := by rw [h1, Nat.max_self]
      have hws : (x :: t).foldl winStep (h, w) = t.foldl winStep (h, w ++ [x.1]) := by
        rw [List.foldl_cons]
        congr 1
        unfold winStep
        rw [if_neg (show ¬(x.2 > h) by omega),
          if_pos (show (x.2 == h) = true by simp [h1])]
      rw [hws, ih]
      have hMeq : maxFrom h (x :: t) = maxFrom h t := by rw [hM, hmax]
      rw [hMeq, List.filter_cons]
      by_cases h2 : maxFrom h t = h
      · rw [if_pos h2, if_pos h2,
          if_pos (show (x.2 == maxFrom h t) = true by simp [← h1, h2])]
        simp
      · rw [if_neg h2, if_neg h2,
          if_neg (show ¬((x.2 == maxFrom h t) = true) by simp [← h1]; exact fun he => h2 he.symm)]
    · have hmax : max h x.2 = h := Nat.max_eq_left (Nat.le_of_lt h1)
      have hws : (x :: t).foldl winStep (h, w) = t.foldl winStep (h, w) := by
        rw [List.foldl_cons]
        congr 1
        unfold winStep
        rw [if_neg (show ¬(x.2 > h) by omega),
          if_neg (show ¬((x.2 == h) = true) by simp; omega)]
      rw [hws, ih]
      have hMeq : maxFrom h (x :: t) = maxFrom h t := by rw [hM, hmax]
      have hge : h ≤ maxFrom h t := le_maxFrom t h
      rw [hMeq, List.filter_cons,
        if_neg (show ¬((x.2 == maxFrom h t) = true) by simp; omega)]

theorem winnersOf_eq (t : List (String × Nat)) :
    winnersOf t = (maxCount t, achievers t) := by
  unfold winnersOf achievers
  rw [foldl_winStep_eq]
  have hmc : maxCount t = maxFrom 0 t := rfl
  rw [← hmc]
  simp

theorem codeChars_length_pos : 0 < codeChars.length := by decide

theorem makeCode_length (rnd : Nat → Nat) (len : Nat) : (makeCode rnd len).length = len := by
  unfold makeCode
  show ((List.range len).map _).length = len
  rw [List.length_map, List.length_range]

theorem makeCode_mem_chars (rnd : Nat → Nat) (len : Nat) :
    ∀ ch ∈ (makeCode rnd len).toList, ch ∈ codeChars := by
  unfold makeCode
  intro ch hch
  have hch2 : ch ∈ (List.range len).map (fun i => codeChars.getD (rnd i % codeChars.length) 'A') := hch
  rcases List.mem_map.mp hch2 with ⟨i, _, heq⟩
  rw [← heq]
  exact getD_mem_of_lt _ _ _ (Nat.mod_lt _ codeChars_length_pos)

theorem createRoom_spec (rnds : List (Nat → Nat)) (rooms : Rooms) (room : Room) (rooms1 : Rooms)
    (h : createRoom rnds rooms = some (room, rooms1)) :
    hasRoom rooms room.code = false
    ∧ room.code.length = 4
    ∧ (∀ ch ∈ room.code.toList, ch ∈ codeChars)
    ∧ room = newRoom room.code
    ∧ rooms1 = setRoom rooms room.code room := by
  unfold createRoom at h
  cases hf : (rnds.map (fun f => makeCode f 4)).find? (fun c => !(hasRoom rooms c)) with
  | none =>
    rw [hf] at h
    exact absurd h (by simp)
  | some code =>
    rw [hf] at h
    have hcode := List.find?_some hf
    have hmem := List.mem_of_find?_eq_some hf
    rcases List.mem_map.mp hmem with ⟨f, _, hfc⟩
    have hpair : (newRoom code, setRoom rooms code (newRoom code)) = (room, rooms1) := by
      injection h
    have hroom : room = newRoom code := (congrArg Prod.fst hpair).symm
    have hrooms1 : rooms1 = setRoom rooms code (newRoom code) := (congrArg Prod.snd hpair).symm
    have hrc : room.code = code := by rw [hroom]; rfl
    refine ⟨?_, ?_, ?_, ?_, ?_⟩
    · rw [hrc]
      simpa using hcode
    · rw [hrc, ← hfc]
      exact makeCode_length f 4
    · rw [hrc, ← hfc]
      exact makeCode_mem_chars f 4
    · rw [hroom]
      rfl
    · rw [hrooms1, hrc, hroom]

theorem hasRoom_setRoom_self (rs : Rooms) (c : String) (r : Room) :
    hasRoom (setRoom rs c r) c = true :=
  hasRoom_of_getRoom _ _ _ (getRoom_setRoom_self rs c r)

theorem keys_setRoom (rs : Rooms) (c : String) (r : Room) :
    (setRoom rs c r).map Prod.fst =
      if hasRoom rs c then rs.map Prod.fst else rs.map Prod.fst ++ [c] := by
  unfold setRoom setAssoc hasRoom
  by_cases h : rs.any (fun kv => kv.1 == c) = true
  · rw [if_pos h, if_pos h, List.map_map]
    apply List.map_congr_left
    intro kv _
    by_cases hk : (kv.1 == c) = true
    · have : kv.1 = c := by simpa using hk
      simp [hk, this]
    · have hne : ¬ kv.1 = c := by simpa using hk
      simp [hk, hne]
  · rw [if_neg h, if_neg h, List.map_append]
    rfl

theorem nodup_keys_setRoom_fresh (rs : Rooms) (c : String) (r : Room)
    (hnd : (rs.map Prod.fst).Nodup) (hfresh : hasRoom rs c = false) :
    ((setRoom rs c r).map Prod.fst).Nodup := by
  rw [keys_setRoom, hfresh]
  simp only [Bool.false_eq_true, if_false]
  rw [List.nodup_append]
  refine ⟨hnd, List.nodup_singleton c, ?_⟩
  intro a ha hb
  have hac : a = c := by simpa using hb
  rcases List.mem_map.mp ha with ⟨kv, hkv, hfst⟩
  have : (kv.1 == c) = true := by simp [hfst, hac]
  have habs : hasRoom rs c = true := List.any_eq_true.mpr ⟨kv, hkv, this⟩
  rw [habs] at hfresh
  exact absurd hfresh (by simp)

theorem nodup_keys_setRoom_existing (rs : Rooms) (c : String) (r : Room)
    (hnd : (rs.map Prod.fst).Nodup) (hhas : hasRoom rs c = true) :
    ((setRoom rs c r).map Prod.fst).Nodup := by
  rw [keys_setRoom, hhas]
  simpa using hnd

-- --- Message recognizers ---

/-- recognizer for a `round_result` envelope. -/
def isRoundResult : OutMsg → Bool
  | OutMsg.roundResult _ _ _ _ _ _ => true
  | _ => false

/-- recognizer for an `error` envelope. -/
def isErrorMsg : OutMsg → Bool
  | OutMsg.errorMsg _ => true
  | _ => false

-- --- A concrete run of the richer variant ---
-- Host `p1` creates room `AAAA`; `p2`/Ann, `p3`/Ben, `p4`/Cy, `p5`/Di
-- join; the host starts the round with category 0 (Fruits), coordinate
-- (1,2) (secret word `Lemon`) and chameleon index 1 (Ben, `p3`); all
-- four hint; Ann accuses Ben (the chameleon); votes then come in as
-- `p2→p4, p3→p4, p4→p5, p5→p5`, a 2–2 tie of the tally.

def exHost0 : Conn := ⟨"p1", none, none⟩

def exCreated : Rooms × Conn × List Out :=
  (handleCreate [] exHost0 [fun _ => 0]).getD ([], exHost0, [])

def exHost : Conn := exCreated.2.1

def exJ1 : Rooms × Conn × List Out :=
  handleJoin exCreated.1 ⟨"p2", none, none⟩ (some "AAAA") (some "Ann")

def exJ2 : Rooms × Conn × List Out :=
  handleJoin exJ1.1 ⟨"p3", none, none⟩ (some "AAAA") (some "Ben")

def exJ3 : Rooms × Conn × List Out :=
  handleJoin exJ2.1 ⟨"p4", none, none⟩ (some "AAAA") (some "Cy")

def exJ4 : Rooms × Conn × List Out :=
  handleJoin exJ3.1 ⟨"p5", none, none⟩ (some "AAAA") (some "Di")

def exAnn : Conn := exJ1.2.1

def exBen : Conn := exJ2.2.1

def exCy : Conn := exJ3.2.1

def exDi : Conn := exJ4.2.1

def exStart : Rooms × List Out := R.handleHostStart exJ4.1 exHost 0 1 2 1

def exH1 : Rooms × List Out := R.handleSubmitHint exStart.1 exAnn (some "yellow")

def exH2 : Rooms × List Out := R.handleSubmitHint exH1.1 exBen (some "sour")

def exH3 : Rooms × List Out := R.handleSubmitHint exH2.1 exCy (some "citrus")

def exH4 : Rooms × List Out := R.handleSubmitHint exH3.1 exDi (some "zesty")

def exAcc : Rooms × List Out := R.handleAccuse exH4.1 exAnn (some "p3")

def exV1 : Rooms × List Out := R.handleVote exAcc.1 exAnn (some "p4")

def exV2 : Rooms × List Out := R.handleVote exV1.1 exBen (some "p4")

def exV3 : Rooms × List Out := R.handleVote exV2.1 exCy (some "p5")

def exV4 : Rooms × List Out := R.handleVote exV3.1 exDi (some "p5")

-- concrete room values reached along the run (each checked against the
-- run by `decide` in the corresponding witness or counterexample)

def exRoomA : Room := { newRoom "AAAA" with hostWs := some "p1" }

def exPlayers4 : List Player :=
  [⟨"p2", "Ann", false⟩, ⟨"p3", "Ben", false⟩, ⟨"p4", "Cy", false⟩, ⟨"p5", "Di", false⟩]

def exLobbyRoom : Room := { exRoomA with players := exPlayers4 }

def exStartRoom : Room := { exLobbyRoom with
  state := "hint",
  category := some (CATEGORIES.getD 0 defaultCategory),
  grid := some (CATEGORIES.getD 0 defaultCategory).grid,
  coord := some ⟨1, 2⟩, chameleonId := some "p3" }

def exHints4 : List (String × String) :=
  [("p2", "yellow"), ("p3", "sour"), ("p4", "citrus"), ("p5", "zesty")]

def exVoteRoom : Room := { exStartRoom with
  state := "voting", hints := exHints4, accusations := [("p2", "p3")] }

def exGuessRoom : Room := { exVoteRoom with
  state := "chameleon_guess",
  votes := [("p2", "p4"), ("p3", "p4"), ("p4", "p5"), ("p5", "p5")] }

-- --- A concrete run of the simplified variant ---
-- Host `p1` creates room `AAAA`; `p2`/Ann, `p3`/Ben, `p4`/Cy join and
-- the host starts the round (category Fruits, coordinate (1,2),
-- chameleon `p3`), reaching the `hint` phase.

def exsCreated : Rooms × Conn × List Out :=
  (handleCreate [] ⟨"p1", none, none⟩ [fun _ => 0]).getD ([], ⟨"p1", none, none⟩, [])

def exsJ1 : Rooms × Conn × List Out :=
  handleJoin exsCreated.1 ⟨"p2", none, none⟩ (some "AAAA") (some "Ann")

def exsJ2 : Rooms × Conn × List Out :=
  handleJoin exsJ1.1 ⟨"p3", none, none⟩ (some "AAAA") (some "Ben")

def exsJ3 : Rooms × Conn × List Out :=
  handleJoin exsJ2.1 ⟨"p4", none, none⟩ (some "AAAA") (some "Cy")

def exsStart : Rooms × List Out := S.handleHostStart exsJ3.1 exsCreated.2.1 0 1 2 1

def exsStartRoom : Room := { exRoomA with
  players := [⟨"p2", "Ann", false⟩, ⟨"p3", "Ben", false⟩, ⟨"p4", "Cy", false⟩],
  state := "hint",
  category := some (CATEGORIES.getD 0 defaultCategory),
  grid := some (CATEGORIES.getD 0 defaultCategory).grid,
  coord := some ⟨1, 2⟩, chameleonId := some "p3" }

def exsLongHint : String := String.mk (List.replicate 51 'a')

-- --- Broadcast membership helpers ---

/-- every member of the recipient list receives a broadcast message. -/
theorem mem_broadcastTo (cs : List String) (m : OutMsg) (cl : String) (h : cl ∈ cs) :
    (cl, m) ∈ broadcastTo cs m :=
  List.mem_map_of_mem (fun c => (c, m)) h

/-- a delivered broadcast message carries the broadcast envelope. -/
theorem eq_msg_of_mem_broadcastTo (cs : List String) (m : OutMsg) (o : Out)
    (h : o ∈ broadcastTo cs m) : o.2 = m := by
  rcases List.mem_map.mp h with ⟨c, _, he⟩
  rw [← he]

-- --- Further concrete states used by witnesses and counterexamples ---

/-- a voting-phase room with an empty accusations sequence whose four
votes will tie 2–2 once the last one arrives. -/
def exTieRoom : Room := { exRoomA with
  players := exPlayers4, state := "voting",
  category := some (CATEGORIES.getD 0 defaultCategory),
  grid := some (CATEGORIES.getD 0 defaultCategory).grid,
  coord := some ⟨1, 2⟩, chameleonId := some "p3",
  hints := exHints4,
  votes := [("p2", "p4"), ("p3", "p4"), ("p4", "p5")] }

/-- the run's room right before the fourth vote. -/
def exVote3Room : Room := { exVoteRoom with
  votes := [("p2", "p4"), ("p3", "p4"), ("p4", "p5")] }

/-- a lobby room already holding `capacity` (8) players. -/
def exFullRoom : Room := { exRoomA with
  players := [⟨"q1", "a", false⟩, ⟨"q2", "b", false⟩, ⟨"q3", "c", false⟩, ⟨"q4", "d", false⟩,
              ⟨"q5", "e", false⟩, ⟨"q6", "f", false⟩, ⟨"q7", "g", false⟩, ⟨"q8", "h", false⟩] }

/-- a lobby room holding five players. -/
def exFiveRoom : Room := { exRoomA with
  players := [⟨"p2", "Ann", false⟩, ⟨"p3", "Ben", false⟩, ⟨"p4", "Cy", false⟩,
              ⟨"p5", "Di", false⟩, ⟨"p6", "Ed", false⟩] }


-- ===================================================================
-- Claim theorems
-- ===================================================================

/-- C9 counterexample: the claim's "fixed 32-symbol alphabet" is wrong —
the literal `'ABCDEFGHJKMNPQRSTUVWXYZ23456789'` used by `makeCode` has
exactly 31 symbols (26 letters minus I, L, O, plus the digits 2–9). -/
theorem c9_counterexample : codeAlphabet.length = 31 ∧ codeAlphabet.length ≠ 32 := by
  decide

/-- C9 (amended): every generated room code is exactly 4 characters
drawn from the fixed 31-symbol alphabet, which excludes the visually
confusable characters 0, O, 1, I and L; at the moment a room is created
its code is absent from the store's prior key set (generation resamples
until the candidate is unused), and creation preserves distinctness of
the live codes, so no two concurrently live rooms share a code. -/
theorem c9_code_generation (rnds : List (Nat → Nat)) (rooms : Rooms)
    (room : Room) (rooms1 : Rooms)
    (h : createRoom rnds rooms = some (room, rooms1)) :
    hasRoom rooms room.code = false
    ∧ room.code.length = 4
    ∧ (∀ ch ∈ room.code.toList, ch ∈ codeChars)
    ∧ codeChars.length = 31
    ∧ ('0' ∉ codeChars ∧ 'O' ∉ codeChars ∧ '1' ∉ codeChars ∧ 'I' ∉ codeChars ∧ 'L' ∉ codeChars)
    ∧ ((rooms.map Prod.fst).Nodup → (rooms1.map Prod.fst).Nodup) := by
  obtain ⟨hfresh, hlen, hmem, hnewr, hrooms1⟩ := createRoom_spec rnds rooms room rooms1 h
  refine ⟨hfresh, hlen, hmem, by decide, by decide, ?_⟩
  intro hnd
  rw [hrooms1]
  exact nodup_keys_setRoom_fresh rooms room.code room hnd hfresh

/-- C9 witness: creating a room in the empty store with the constant
draw 0 yields the code `AAAA`, fresh and 4 characters long. -/
theorem c9_witness :
    hasRoom ([] : Rooms) (newRoom "AAAA").code = false
    ∧ (newRoom "AAAA").code.length = 4 := by
  have h : createRoom [fun _ => 0] ([] : Rooms)
      = some (newRoom "AAAA", setRoom [] "AAAA" (newRoom "AAAA")) := by rfl
  have hc := c9_code_generation [fun _ => 0] [] (newRoom "AAAA")
    (setRoom [] "AAAA" (newRoom "AAAA")) h
  exact ⟨hc.1, hc.2.1⟩

/-- C2: in the richer variant's vote resolution, a non-empty
accusations sequence makes the first recorded accusation's target the
accused identity; with no accusation the accused is the unique identity
achieving the maximum tally when exactly one such identity exists, and
null (no consensus) when the maximum is shared by more than one
identity (`achievers` lists the identities achieving the maximum tally
count, in entry order, and equals the code's `winners` list by
`winnersOf_eq`). -/
theorem c2_resolution_accused (accs votes : List (String × String)) :
    (∀ a rest, accs = a :: rest → resolveAccused accs votes = some a.2)
    ∧ (accs = [] → (achievers (tallyOf votes)).length = 1 →
        resolveAccused accs votes = (achievers (tallyOf votes)).head?)
    ∧ (accs = [] → 1 < (achievers (tallyOf votes)).length →
        resolveAccused accs votes = none) := by
  unfold resolveAccused
  have hsnd : (winnersOf (tallyOf votes)).2 = achievers (tallyOf votes) := by
    rw [winnersOf_eq]
  refine ⟨?_, ?_, ?_⟩
  · intro a rest ha
    subst ha
    rw [if_pos (by simp)]
    rfl
  · intro ha h1
    subst ha
    rw [if_neg (by simp)]
    simp only [hsnd]
    rw [if_pos (by simp [h1])]
  · intro ha h1
    subst ha
    rw [if_neg (by simp)]
    simp only [hsnd]
    rw [if_neg (show ¬(((achievers (tallyOf votes)).length == 1) = true) by simp; omega)]

/-- C2 witness: a recorded accusation wins over the tally; a unique
tally winner is accused; a 2–2 tie resolves to null. -/
theorem c2_witness :
    resolveAccused [("p1", "p9")] [] = some "p9"
    ∧ resolveAccused [] [("a", "X"), ("b", "X"), ("c", "Y")] = some "X"
    ∧ resolveAccused [] [("a", "X"), ("b", "X"), ("c", "Y"), ("d", "Y")] = none := by
  refine ⟨(c2_resolution_accused [("p1", "p9")] []).1 ("p1", "p9") [] rfl, ?_, ?_⟩
  · have h := (c2_resolution_accused [] [("a", "X"), ("b", "X"), ("c", "Y")]).2.1 rfl (by decide)
    rw [h]
    decide
  · exact (c2_resolution_accused [] [("a", "X"), ("b", "X"), ("c", "Y"), ("d", "Y")]).2.2 rfl
      (by decide)

/-- C1 counterexample: in the richer variant the claim fails.  In the
concrete run, the room is in the voting phase, all 4 players have
voted and the tally ties 2–2 (`achievers = [p4, p5]`), yet resolution
does not produce any `round_result`: because an accusation exists (the
only way the richer variant reaches the voting phase) and it targets
the chameleon, the room moves to the `chameleon_guess` phase instead —
and a correct guess from there would end in a group win, so the
impostor does not necessarily survive. -/
theorem c1_counterexample :
    ((getRoom exV3.1 "AAAA").map Room.state = some "voting")
    ∧ ((getRoom exV4.1 "AAAA").map (fun r => r.votes.length) = some 4)
    ∧ ((getRoom exV4.1 "AAAA").map (fun r => r.players.length) = some 4)
    ∧ ((getRoom exV4.1 "AAAA").map (fun r => achievers (tallyOf r.votes)) = some ["p4", "p5"])
    ∧ ((getRoom exV4.1 "AAAA").map Room.state = some "chameleon_guess")
    ∧ (exV4.2.all (fun o => !(isRoundResult o.2)) = true) := by
  decide

/-- C1 (amended): when the room's accusations sequence is empty —
always the case in the simplified variant, and the only case in which
the richer variant consults the tally — a tie for the maximum tally
count among all submitted votes yields the no-consensus outcome: a
`round_result` with `success = false` is broadcast to every client and
the round finishes, for any vote map with a tied tally (hence
regardless of submission order) provided a chameleon is assigned. -/
theorem c1_tie_resolution :
    (∀ (rooms : Rooms) (ws : Conn) (code : String) (room : Room) (cid t : String),
      ws.roomCode = some code → getRoom rooms code = some room →
      room.state = "voting" → room.chameleonId = some cid → t ≠ "" →
      (setAssoc room.votes ws.id t).length = room.players.length →
      2 ≤ (achievers (tallyOf (setAssoc room.votes ws.id t))).length →
      ((getRoom (S.handleVote rooms ws (some t)).1 code).map Room.state = some "finished")
      ∧ (∀ cl ∈ clientsOf room,
          (cl, OutMsg.roundResult false none none
            (some (secretWordOf room)) (some cid) none) ∈ (S.handleVote rooms ws (some t)).2))
    ∧ (∀ (rooms : Rooms) (ws : Conn) (code : String) (room : Room) (cid t : String),
      ws.roomCode = some code → getRoom rooms code = some room →
      room.state = "voting" → room.accusations = [] →
      room.chameleonId = some cid → t ≠ "" →
      (setAssoc room.votes ws.id t).length = room.players.length →
      2 ≤ (achievers (tallyOf (setAssoc room.votes ws.id t))).length →
      ((getRoom (R.handleVote rooms ws (some t)).1 code).map Room.state = some "finished")
      ∧ (∀ cl ∈ clientsOf room,
          (cl, OutMsg.roundResult false (some "no_consensus") none
            (some (secretWordOf room)) (some cid) none) ∈ (R.handleVote rooms ws (some t)).2)) := by
  constructor
  · intro rooms ws code room cid t hws hget hstate hcham ht hfull htie
    unfold S.handleVote
    rw [hws]
    simp only [hget]
    rw [if_neg (show ¬((room.state != "voting") = true) by simp [hstate])]
    simp only [Option.getD_some]
    rw [if_pos (show ((setAssoc room.votes ws.id t).length == room.players.length) = true by
      simp [hfull])]
    have hsnd : (winnersOf (tallyOf (setAssoc room.votes ws.id t))).2
        = achievers (tallyOf (setAssoc room.votes ws.id t)) := by rw [winnersOf_eq]
    rw [hsnd]
    rw [if_neg (show ¬(((achievers (tallyOf (setAssoc room.votes ws.id t))).length == 1) = true) by
      simp; omega)]
    rw [hcham]
    constructor
    · rw [getRoom_setRoom_self]
      rfl
    · intro cl hcl
      apply List.mem_append_left
      exact mem_broadcastTo _ _ cl hcl
  · intro rooms ws code room cid t hws hget hstate hacc hcham ht hfull htie
    unfold R.handleVote
    rw [hws]
    simp only [hget]
    rw [if_neg (show ¬((room.state != "voting") = true) by simp [hstate])]
    rw [if_neg (show ¬((!(otruthy (some t))) = true) by simp [otruthy, ht])]
    simp only [Option.getD_some]
    rw [if_pos (show ((setAssoc room.votes ws.id t).length == room.players.length) = true by
      simp [hfull])]
    have hres : resolveAccused room.accusations (setAssoc room.votes ws.id t) = none := by
      rw [hacc]
      unfold resolveAccused
      rw [if_neg (by simp)]
      have hsnd : (winnersOf (tallyOf (setAssoc room.votes ws.id t))).2
          = achievers (tallyOf (setAssoc room.votes ws.id t)) := by rw [winnersOf_eq]
      simp only [hsnd]
      rw [if_neg (show ¬(((achievers (tallyOf (setAssoc room.votes ws.id t))).length == 1) = true) by
        simp; omega)]
    rw [hres]
    rw [if_pos (show (!(otruthy none)) = true by rfl)]
    rw [hcham]
    constructor
    · rw [getRoom_setRoom_self]
      rfl
    · intro cl hcl
      apply List.mem_append_left
      exact mem_broadcastTo _ _ cl hcl

/-- C1 witness: a 2–2 tie (`p4` and `p5` with two votes each) in a
voting room with no accusations yields the no-consensus round result
with `success = false` for all clients, in both variants. -/
theorem c1_witness :
    ((getRoom (S.handleVote [("AAAA", exTieRoom)] ⟨"p5", some "AAAA", some "player"⟩ (some "p5")).1
        "AAAA").map Room.state = some "finished")
    ∧ (("p1", OutMsg.roundResult false none none (some (secretWordOf exTieRoom)) (some "p3") none)
        ∈ (S.handleVote [("AAAA", exTieRoom)] ⟨"p5", some "AAAA", some "player"⟩ (some "p5")).2)
    ∧ ((getRoom (R.handleVote [("AAAA", exTieRoom)] ⟨"p5", some "AAAA", some "player"⟩ (some "p5")).1
        "AAAA").map Room.state = some "finished")
    ∧ (("p1", OutMsg.roundResult false (some "no_consensus") none
          (some (secretWordOf exTieRoom)) (some "p3") none)
        ∈ (R.handleVote [("AAAA", exTieRoom)] ⟨"p5", some "AAAA", some "player"⟩ (some "p5")).2) := by
  have hS := c1_tie_resolution.1 [("AAAA", exTieRoom)] ⟨"p5", some "AAAA", some "player"⟩ "AAAA"
    exTieRoom "p3" "p5" rfl (by decide) (by decide) (by decide) (by decide) (by decide) (by decide)
  have hR := c1_tie_resolution.2 [("AAAA", exTieRoom)] ⟨"p5", some "AAAA", some "player"⟩ "AAAA"
    exTieRoom "p3" "p5" rfl (by decide) (by decide) (by decide) (by decide) (by decide) (by decide)
    (by decide)
  exact ⟨hS.1, hS.2 "p1" (by decide), hR.1, hR.2 "p1" (by decide)⟩

/-- C3: if the impostor is correctly accused — the room's first
accusation targets the chameleon, so vote resolution compares the
accused with `chameleonId` — the room moves to the `chameleon_guess`
phase; from there a guess from the chameleon whose lowercased,
whitespace-trimmed text equals the lowercased secret word finalizes a
`round_result` with `success = false` (an impostor win) delivered to
every client (players and host), and any other guess finalizes
`success = true` (a group win).  The comparison matches the source:
`guess.toLowerCase().trim() === secretWord.toLowerCase()`. -/
theorem c3_guess_reversal :
    (∀ (rooms : Rooms) (ws : Conn) (code : String) (room : Room)
        (a : String × String) (rest : List (String × String)) (t : String),
      ws.roomCode = some code → getRoom rooms code = some room →
      room.state = "voting" → t ≠ "" →
      room.accusations = a :: rest → a.2 ≠ "" → room.chameleonId = some a.2 →
      (setAssoc room.votes ws.id t).length = room.players.length →
      (getRoom (R.handleVote rooms ws (some t)).1 code).map Room.state = some "chameleon_guess")
    ∧ (∀ (rooms : Rooms) (ws : Conn) (code : String) (room : Room) (g : String),
      ws.roomCode = some code → getRoom rooms code = some room →
      room.state = "chameleon_guess" → room.chameleonId = some ws.id →
      jsTrim (jsToLower g) = jsToLower (secretWordOf room) → g ≠ "" →
      R.handleChamGuess rooms ws (some g) =
        ( setRoom rooms code { room with state := "finished" }
        , broadcastTo (clientsOf room) (OutMsg.roundResult false (some "chameleon_guessed") (some g)
              (some (secretWordOf room)) (some ws.id) none)
            ++ broadcastTo (clientsOf room)
                (OutMsg.roomUpdate (getPublicRoomState { room with state := "finished" })) ))
    ∧ (∀ (rooms : Rooms) (ws : Conn) (code : String) (room : Room) (g : String),
      ws.roomCode = some code → getRoom rooms code = some room →
      room.state = "chameleon_guess" → room.chameleonId = some ws.id →
      jsTrim (jsToLower g) ≠ jsToLower (secretWordOf room) →
      R.handleChamGuess rooms ws (some g) =
        ( setRoom rooms code { room with state := "finished" }
        , broadcastTo (clientsOf room) (OutMsg.roundResult true (some "chameleon_failed") (some g)
              (some (secretWordOf room)) (some ws.id) none)
            ++ broadcastTo (clientsOf room)
                (OutMsg.roomUpdate (getPublicRoomState { room with state := "finished" })) )) := by
  refine ⟨?_, ?_, ?_⟩
  · intro rooms ws code room a rest t hws hget hstate ht hacc ha hcham hfull
    unfold R.handleVote
    rw [hws]
    simp only [hget]
    rw [if_neg (show ¬((room.state != "voting") = true) by simp [hstate])]
    rw [if_neg (show ¬((!(otruthy (some t))) = true) by simp [otruthy, ht])]
    simp only [Option.getD_some]
    rw [if_pos (show ((setAssoc room.votes ws.id t).length == room.players.length) = true by
      simp [hfull])]
    have hres : resolveAccused room.accusations (setAssoc room.votes ws.id t) = some a.2 := by
      rw [hacc]
      unfold resolveAccused
      rw [if_pos (by simp)]
      rfl
    rw [hres]
    rw [if_neg (show ¬((!(otruthy (some a.2))) = true) by simp [otruthy, ha])]
    simp only [Option.getD_some]
    rw [hcham]
    rw [if_pos (show (some a.2 == some a.2) = true by simp)]
    rw [getRoom_setRoom_self]
    rfl
  · intro rooms ws code room g hws hget hstate hcham hmatch hg
    unfold R.handleChamGuess
    rw [hws]
    simp only [hget]
    rw [if_neg (show ¬((room.state != "chameleon_guess") = true) by simp [hstate])]
    rw [if_neg (show ¬((room.chameleonId != some ws.id) = true) by simp [hcham])]
    simp only [Option.getD_some]
    rw [if_pos (show (otruthy (some g)
        && (jsTrim (jsToLower g) == jsToLower (secretWordOf room))) = true by
      simp [otruthy, hg, hmatch])]
    rw [hcham]
  · intro rooms ws code room g hws hget hstate hcham hmatch
    unfold R.handleChamGuess
    rw [hws]
    simp only [hget]
    rw [if_neg (show ¬((room.state != "chameleon_guess") = true) by simp [hstate])]
    rw [if_neg (show ¬((room.chameleonId != some ws.id) = true) by simp [hcham])]
    simp only [Option.getD_some]
    rw [if_neg (show ¬((otruthy (some g)
        && (jsTrim (jsToLower g) == jsToLower (secretWordOf room))) = true) by
      simp [otruthy, hmatch])]
    rw [hcham]

/-- C3 witness: in the concrete run, the fourth vote moves the room to
`chameleon_guess` (the accusation targeted the chameleon `p3`); from
there the guess `"  LEMON "` — equal to the secret word `Lemon` up to
case and surrounding whitespace — produces the impostor-win result
(`success = false`), while `"mango"` produces the group win. -/
theorem c3_witness :
    ((getRoom (R.handleVote exV3.1 exDi (some "p5")).1 "AAAA").map Room.state
      = some "chameleon_guess")
    ∧ ((R.handleChamGuess exV4.1 exBen (some "  LEMON ")).2.head?.map (fun o => o.2)
        = some (OutMsg.roundResult false (some "chameleon_guessed") (some "  LEMON ")
            (some "Lemon") (some "p3") none))
    ∧ ((R.handleChamGuess exV4.1 exBen (some "mango")).2.head?.map (fun o => o.2)
        = some (OutMsg.roundResult true (some "chameleon_failed") (some "mango")
            (some "Lemon") (some "p3") none)) := by
  refine ⟨?_, ?_, ?_⟩
  · exact c3_guess_reversal.1 exV3.1 exDi "AAAA" exVote3Room ("p2", "p3") [] "p5"
      (by decide) (by decide) (by decide) (by decide) (by decide) (by decide) (by decide) (by decide)
  · have h := c3_guess_reversal.2.1 exV4.1 exBen "AAAA" exGuessRoom "  LEMON "
      (by decide) (by decide) (by decide) (by decide) (by decide) (by decide)
    rw [h]
    decide
  · have h := c3_guess_reversal.2.2 exV4.1 exBen "AAAA" exGuessRoom "mango"
      (by decide) (by decide) (by decide) (by decide) (by decide)
    rw [h]
    decide

/-- C4: a join action never makes the player count exceed the room's
capacity — the invariant `players.length ≤ capacity` over every stored
room is preserved by `join_room` — and a join against a room already
holding `capacity` players is rejected with the `room_full` error sent
only to the joiner, with the store (hence the room's player list) and
the joiner's binding unchanged. -/
theorem c4_join_capacity :
    (∀ (rooms : Rooms) (ws : Conn) (code name : Option String),
      (∀ cd rm, getRoom rooms cd = some rm → rm.players.length ≤ rm.capacity) →
      ∀ cd rm, getRoom (handleJoin rooms ws code name).1 cd = some rm →
        rm.players.length ≤ rm.capacity)
    ∧ (∀ (rooms : Rooms) (ws : Conn) (c nm : String) (room : Room),
      c ≠ "" → nm ≠ "" → getRoom rooms c = some room →
      room.capacity ≤ room.players.length →
      handleJoin rooms ws (some c) (some nm)
        = (rooms, ws, [(ws.id, OutMsg.errorMsg "room_full")])) := by
  constructor
  · intro rooms ws code name hinv cd rm hget
    unfold handleJoin at hget
    by_cases h1 : (!(otruthy code) || !(otruthy name)) = true
    · rw [if_pos h1] at hget
      exact hinv cd rm hget
    · rw [if_neg h1] at hget
      simp only [] at hget
      cases hg : getRoom rooms (code.getD "") with
      | none =>
        rw [hg] at hget
        exact hinv cd rm hget
      | some room =>
        rw [hg] at hget
        simp only [] at hget
        by_cases h2 : room.players.length ≥ room.capacity
        · rw [if_pos h2] at hget
          exact hinv cd rm hget
        · rw [if_neg h2] at hget
          by_cases h3 : (room.state != "lobby") = true
          · rw [if_pos h3] at hget
            exact hinv cd rm hget
          · rw [if_neg h3] at hget
            by_cases hcd : cd = code.getD ""
            · subst hcd
              rw [show getRoom
                  (setRoom rooms (code.getD "")
                    { room with players := room.players
                        ++ [{ id := ws.id, name := jsTake (name.getD "") 20, ready := false }] })
                  (code.getD "")
                  = some { room with players := room.players
                      ++ [{ id := ws.id, name := jsTake (name.getD "") 20, ready := false }] }
                from getRoom_setRoom_self _ _ _] at hget
              have hrm : rm = { room with players := room.players
                  ++ [{ id := ws.id, name := jsTake (name.getD "") 20, ready := false }] } := by
                injection hget with h
                exact h.symm
              subst hrm
              have hlt : room.players.length < room.capacity := Nat.lt_of_not_le h2
              simp only [List.length_append, List.length_cons, List.length_nil]
              omega
            · rw [show getRoom
                  (setRoom rooms (code.getD "")
                    { room with players := room.players
                        ++ [{ id := ws.id, name := jsTake (name.getD "") 20, ready := false }] })
                  cd
                  = getRoom rooms cd
                from getRoom_setRoom_ne _ _ _ _ hcd] at hget
              exact hinv cd rm hget
  · intro rooms ws c nm room hc hnm hg hfull
    unfold handleJoin
    rw [if_neg (show ¬((!(otruthy (some c)) || !(otruthy (some nm))) = true) by
      simp [otruthy, hc, hnm])]
    simp only [Option.getD_some]
    rw [hg]
    simp only []
    rw [if_pos hfull]

/-- C4 witness: the 9th join against a capacity-8 room is rejected
with `room_full` sent only to the joiner, and the store is unchanged. -/
theorem c4_witness :
    handleJoin [("AAAA", exFullRoom)] ⟨"p9", none, none⟩ (some "AAAA") (some "Ix")
      = ([("AAAA", exFullRoom)], ⟨"p9", none, none⟩, [("p9", OutMsg.errorMsg "room_full")]) :=
  c4_join_capacity.2 [("AAAA", exFullRoom)] ⟨"p9", none, none⟩ "AAAA" "Ix" exFullRoom
    (by decide) (by decide) (by decide) (by decide)

/-- C5 counterexample: in the simplified variant (`src/server.js`) a
51-character hint submitted in the hint phase is not rejected — it is
accepted and stored truncated to its first 50 characters, with no
error reply — contradicting the claim that any hint longer than 50
characters is rejected with the room left unchanged. -/
theorem c5_counterexample :
    ((getRoom (S.handleSubmitHint exsStart.1 exsJ1.2.1 (some exsLongHint)).1 "AAAA").map Room.hints
      = some [("p2", String.mk (List.replicate 50 'a'))])
    ∧ (∀ o ∈ (S.handleSubmitHint exsStart.1 exsJ1.2.1 (some exsLongHint)).2, isErrorMsg o.2 = false)
    ∧ exsLongHint.length = 51 := by
  decide

/-- C5 (amended): a submit_hint action is accepted only in the hint
phase with a truthy string payload; a missing or empty hint, or a
wrong phase, is rejected with a single error reply to the sender and
the store left exactly as it was.  The richer variant additionally
rejects hints longer than 50 characters; the simplified variant
instead accepts them and stores the first 50 characters
(`hint.slice(0,50)`), with no error reply. -/
theorem c5_hint_validation :
    (∀ (rooms : Rooms) (ws : Conn) (code : String) (room : Room) (hint : Option String),
      ws.roomCode = some code → getRoom rooms code = some room → room.state ≠ "hint" →
      R.handleSubmitHint rooms ws hint = (rooms, [(ws.id, OutMsg.errorMsg "not_in_hint_phase")]))
    ∧ (∀ (rooms : Rooms) (ws : Conn) (code : String) (room : Room) (hint : Option String),
      ws.roomCode = some code → getRoom rooms code = some room → room.state = "hint" →
      (otruthy hint = false ∨ 50 < (hint.getD "").length) →
      R.handleSubmitHint rooms ws hint = (rooms, [(ws.id, OutMsg.errorMsg "invalid_hint")]))
    ∧ (∀ (rooms : Rooms) (ws : Conn) (code : String) (room : Room) (h : String),
      ws.roomCode = some code → getRoom rooms code = some room → room.state = "hint" →
      h ≠ "" → h.length ≤ 50 →
      ((getRoom (R.handleSubmitHint rooms ws (some h)).1 code).map Room.hints
        = some (setAssoc room.hints ws.id (jsTake h 50)))
      ∧ (∀ o ∈ (R.handleSubmitHint rooms ws (some h)).2, isErrorMsg o.2 = false))
    ∧ (∀ (rooms : Rooms) (ws : Conn) (code : String) (room : Room) (hint : Option String),
      ws.roomCode = some code → getRoom rooms code = some room → room.state ≠ "hint" →
      S.handleSubmitHint rooms ws hint = (rooms, [(ws.id, OutMsg.errorMsg "not_in_hint")]))
    ∧ (∀ (rooms : Rooms) (ws : Conn) (code : String) (room : Room) (hint : Option String),
      ws.roomCode = some code → getRoom rooms code = some room → room.state = "hint" →
      otruthy hint = false →
      S.handleSubmitHint rooms ws hint = (rooms, [(ws.id, OutMsg.errorMsg "invalid_hint")]))
    ∧ (∀ (rooms : Rooms) (ws : Conn) (code : String) (room : Room) (h : String),
      ws.roomCode = some code → getRoom rooms code = some room → room.state = "hint" →
      h ≠ "" →
      ((getRoom (S.handleSubmitHint rooms ws (some h)).1 code).map Room.hints
        = some (setAssoc room.hints ws.id (jsTake h 50)))
      ∧ (∀ o ∈ (S.handleSubmitHint rooms ws (some h)).2, isErrorMsg o.2 = false)) := by
  refine ⟨?_, ?_, ?_, ?_, ?_, ?_⟩
  · intro rooms ws code room hint hws hget hstate
    unfold R.handleSubmitHint
    rw [hws]
    simp only [hget]
    rw [if_pos (show (room.state != "hint") = true by simp [hstate])]
  · intro rooms ws code room hint hws hget hstate hbad
    unfold R.handleSubmitHint
    rw [hws]
    simp only [hget]
    rw [if_neg (show ¬((room.state != "hint") = true) by simp [hstate])]
    rw [if_pos (show (!(otruthy hint) || ((hint.getD "").length > 50 : Bool)) = true by
      rcases hbad with hb | hb
      · simp [hb]
      · simp [hb])]
  · intro rooms ws code room h hws hget hstate hne hlen
    have hmain : R.handleSubmitHint rooms ws (some h)
        = (let room1 := { room with hints := setAssoc room.hints ws.id (jsTake h 50) }
           if room1.hints.length == room1.players.length then
             let room2 := { room1 with state := "accusation" }
             ( setRoom rooms code room2
             , broadcastTo (clientsOf room2) (OutMsg.hintsRevealed room2.hints)
                 ++ broadcastTo (clientsOf room2) (OutMsg.roomUpdate (getPublicRoomState room2)) )
           else
             ( setRoom rooms code room1
             , broadcastTo (clientsOf room1)
                 (OutMsg.hintProgress room1.hints.length room1.players.length) )) := by
      unfold R.handleSubmitHint
      rw [hws]
      simp only [hget]
      rw [if_neg (show ¬((room.state != "hint") = true) by simp [hstate])]
      rw [if_neg (show ¬((!(otruthy (some h)) || ((some h |>.getD "").length > 50 : Bool)) = true) by
        simp [otruthy, hne]
        omega)]
      rfl
    rw [hmain]
    simp only []
    by_cases hc : (((setAssoc room.hints ws.id (jsTake h 50)).length == room.players.length) = true)
    · rw [if_pos hc]
      constructor
      · rw [getRoom_setRoom_self]
        rfl
      · intro o ho
        rcases List.mem_append.mp ho with hm | hm
        · rw [eq_msg_of_mem_broadcastTo _ _ _ hm]
          rfl
        · rw [eq_msg_of_mem_broadcastTo _ _ _ hm]
          rfl
    · rw [if_neg hc]
      constructor
      · rw [getRoom_setRoom_self]
        rfl
      · intro o ho
        rw [eq_msg_of_mem_broadcastTo _ _ _ ho]
        rfl
  · intro rooms ws code room hint hws hget hstate
    unfold S.handleSubmitHint
    rw [hws]
    simp only [hget]
    rw [if_pos (show (room.state != "hint") = true by simp [hstate])]
  · intro rooms ws code room hint hws hget hstate hbad
    unfold S.handleSubmitHint
    rw [hws]
    simp only [hget]
    rw [if_neg (show ¬((room.state != "hint") = true) by simp [hstate])]
    rw [if_pos (show (!(otruthy hint)) = true by simp [hbad])]
  · intro rooms ws code room h hws hget hstate hne
    have hmain : S.handleSubmitHint rooms ws (some h)
        = (let room1 := { room with hints := setAssoc room.hints ws.id (jsTake h 50) }
           if room1.hints.length == room1.players.length then
             let room2 := { room1 with state := "voting" }
             ( setRoom rooms code room2
             , broadcastTo (clientsOf room2) (OutMsg.hintsRevealed room2.hints)
                 ++ broadcastTo (clientsOf room2) (OutMsg.roomUpdate (getPublicRoomState room2)) )
           else
             ( setRoom rooms code room1
             , broadcastTo (clientsOf room1)
                 (OutMsg.hintProgress room1.hints.length room1.players.length) )) := by
      unfold S.handleSubmitHint
      rw [hws]
      simp only [hget]
      rw [if_neg (show ¬((room.state != "hint") = true) by simp [hstate])]
      rw [if_neg (show ¬((!(otruthy (some h))) = true) by simp [otruthy, hne])]
      rfl
    rw [hmain]
    simp only []
    by_cases hc : (((setAssoc room.hints ws.id (jsTake h 50)).length == room.players.length) = true)
    · rw [if_pos hc]
      constructor
      · rw [getRoom_setRoom_self]
        rfl
      · intro o ho
        rcases List.mem_append.mp ho with hm | hm
        · rw [eq_msg_of_mem_broadcastTo _ _ _ hm]
          rfl
        · rw [eq_msg_of_mem_broadcastTo _ _ _ hm]
          rfl
    · rw [if_neg hc]
      constructor
      · rw [getRoom_setRoom_self]
        rfl
      · intro o ho
        rw [eq_msg_of_mem_broadcastTo _ _ _ ho]
        rfl

/-- C5 witness: a hint outside the hint phase and an over-long hint
are rejected unchanged by the richer variant; a missing hint is
rejected by the simplified variant; a valid hint is recorded. -/
theorem c5_witness :
    (R.handleSubmitHint exAcc.1 exAnn (some "hey")
      = (exAcc.1, [("p2", OutMsg.errorMsg "not_in_hint_phase")]))
    ∧ (R.handleSubmitHint exStart.1 exAnn (some exsLongHint)
      = (exStart.1, [("p2", OutMsg.errorMsg "invalid_hint")]))
    ∧ (S.handleSubmitHint exsStart.1 exsJ1.2.1 none
      = (exsStart.1, [("p2", OutMsg.errorMsg "invalid_hint")]))
    ∧ ((getRoom (R.handleSubmitHint exStart.1 exAnn (some "yellow")).1 "AAAA").map Room.hints
      = some [("p2", "yellow")]) := by
  refine ⟨?_, ?_, ?_, ?_⟩
  · exact c5_hint_validation.1 exAcc.1 exAnn "AAAA" exVoteRoom (some "hey")
      (by decide) (by decide) (by decide)
  · exact c5_hint_validation.2.1 exStart.1 exAnn "AAAA" exStartRoom (some exsLongHint)
      (by decide) (by decide) (by decide) (Or.inr (by decide))
  · exact c5_hint_validation.2.2.2.2.1 exsStart.1 exsJ1.2.1 "AAAA" exsStartRoom none
      (by decide) (by decide) (by decide) (by decide)
  · have h := (c5_hint_validation.2.2.1 exStart.1 exAnn "AAAA" exStartRoom "yellow"
      (by decide) (by decide) (by decide) (by decide) (by decide)).1
    rw [h]
    decide

/-- C6: when the host connection of a room closes, every remaining
player receives a `room_closed` notification (and nothing else) and
the room is removed from the store — in both variants, whose host
branch of the close handler is identical. -/
theorem c6_host_cascade (rooms : Rooms) (ws : Conn) (code : String) (room : Room)
    (hws : ws.roomCode = some code) (hget : getRoom rooms code = some room)
    (hhost : room.hostWs = some ws.id) :
    R.handleClose rooms ws
      = (delRoom rooms code, room.players.map (fun p => (p.id, OutMsg.roomClosed)))
    ∧ S.handleClose rooms ws
      = (delRoom rooms code, room.players.map (fun p => (p.id, OutMsg.roomClosed)))
    ∧ (∀ p ∈ room.players, (p.id, OutMsg.roomClosed) ∈ (R.handleClose rooms ws).2)
    ∧ hasRoom (R.handleClose rooms ws).1 code = false := by
  have hR : R.handleClose rooms ws
      = (delRoom rooms code, room.players.map (fun p => (p.id, OutMsg.roomClosed))) := by
    unfold R.handleClose
    rw [hws]
    simp only [hget]
    rw [if_pos (show (room.hostWs == some ws.id) = true by simp [hhost])]
  have hS : S.handleClose rooms ws
      = (delRoom rooms code, room.players.map (fun p => (p.id, OutMsg.roomClosed))) := by
    unfold S.handleClose
    rw [hws]
    simp only [hget]
    rw [if_pos (show (room.hostWs == some ws.id) = true by simp [hhost])]
  refine ⟨hR, hS, ?_, ?_⟩
  · intro p hp
    rw [hR]
    exact List.mem_map_of_mem _ hp
  · rw [hR]
    exact hasRoom_delRoom_self rooms code

/-- C6 witness: closing the host of a 5-player room sends `room_closed`
to all five players and leaves the store without the room. -/
theorem c6_witness :
    (R.handleClose [("AAAA", exFiveRoom)] ⟨"p1", some "AAAA", some "host"⟩
      = ([], [("p2", OutMsg.roomClosed), ("p3", OutMsg.roomClosed), ("p4", OutMsg.roomClosed),
              ("p5", OutMsg.roomClosed), ("p6", OutMsg.roomClosed)]))
    ∧ hasRoom (R.handleClose [("AAAA", exFiveRoom)] ⟨"p1", some "AAAA", some "host"⟩).1 "AAAA"
      = false := by
  have h := c6_host_cascade [("AAAA", exFiveRoom)] ⟨"p1", some "AAAA", some "host"⟩ "AAAA"
    exFiveRoom rfl (by decide) (by decide)
  constructor
  · rw [h.1]
    decide
  · exact h.2.2.2

/-- C7 counterexample: the invariant fails on the code — at the
reachable voting state of the concrete run, a vote for the identity
`zzz`, which is no current player, is recorded in the votes map
(the handler checks only that the target is truthy, never membership
in `players`). -/
theorem c7_counterexample :
    ((getRoom (R.handleVote exAcc.1 exAnn (some "zzz")).1 "AAAA").map Room.votes
      = some [("p2", "zzz")])
    ∧ ((getRoom (R.handleVote exAcc.1 exAnn (some "zzz")).1 "AAAA").map
        (fun r => r.players.map Player.id) = some ["p2", "p3", "p4", "p5"])
    ∧ ("zzz" ∉ ["p2", "p3", "p4", "p5"]) := by
  decide

/-- C7 (amended): the code does not validate identity references —
any truthy vote target is recorded in the votes map regardless of
membership in `players`; what does hold is that `chameleonId`, at the
moment `host_start_game` assigns it, is the identity of a player
currently in `players`. -/
theorem c7_reference_checks :
    (∀ (rooms : Rooms) (ws : Conn) (catIdx rIdx cIdx chamIdx : Nat) (code : String) (room : Room),
      ws.roomCode = some code → getRoom rooms code = some room →
      room.hostWs = some ws.id → room.minPlayers ≤ room.players.length →
      0 < room.players.length →
      ((getRoom (R.handleHostStart rooms ws catIdx rIdx cIdx chamIdx).1 code).map Room.chameleonId
        = some (some ((room.players.getD (chamIdx % room.players.length) defaultPlayer).id)))
      ∧ (room.players.getD (chamIdx % room.players.length) defaultPlayer) ∈ room.players)
    ∧ (∀ (rooms : Rooms) (ws : Conn) (t : String) (code : String) (room : Room),
      ws.roomCode = some code → getRoom rooms code = some room →
      room.state = "voting" → t ≠ "" →
      (setAssoc room.votes ws.id t).length ≠ room.players.length →
      (getRoom (R.handleVote rooms ws (some t)).1 code).map Room.votes
        = some (setAssoc room.votes ws.id t)) := by
  constructor
  · intro rooms ws catIdx rIdx cIdx chamIdx code room hws hget hhost hmin hpos
    constructor
    · unfold R.handleHostStart
      rw [hws]
      simp only [hget]
      rw [if_neg (show ¬((room.hostWs != some ws.id) = true) by simp [hhost])]
      rw [if_neg (show ¬(room.players.length < room.minPlayers) by omega)]
      simp only []
      rw [getRoom_setRoom_self]
      rfl
    · exact getD_mem_of_lt _ _ _ (Nat.mod_lt _ hpos)
  · intro rooms ws t code room hws hget hstate ht hinc
    unfold R.handleVote
    rw [hws]
    simp only [hget]
    rw [if_neg (show ¬((room.state != "voting") = true) by simp [hstate])]
    rw [if_neg (show ¬((!(otruthy (some t))) = true) by simp [otruthy, ht])]
    simp only [Option.getD_some]
    rw [if_neg (show ¬(((setAssoc room.votes ws.id t).length == room.players.length) = true) by
      simp [hinc])]
    rw [getRoom_setRoom_self]
    rfl

/-- C7 witness: starting the concrete 4-player room assigns the
chameleon from the current players (`p3`); a vote for `p6` — not a
player — is likewise recorded, as the amended claim states. -/
theorem c7_witness :
    ((getRoom (R.handleHostStart exJ4.1 exHost 0 1 2 1).1 "AAAA").map Room.chameleonId
      = some (some "p3"))
    ∧ ((getRoom (R.handleVote exAcc.1 exAnn (some "p6")).1 "AAAA").map Room.votes
      = some [("p2", "p6")]) := by
  have ha := (c7_reference_checks.1 exJ4.1 exHost 0 1 2 1 "AAAA" exLobbyRoom
    (by decide) (by decide) (by decide) (by decide) (by decide)).1
  have hb := c7_reference_checks.2 exAcc.1 exAnn "p6" "AAAA" exVoteRoom
    (by decide) (by decide) (by decide) (by decide) (by decide)
  constructor
  · rw [ha]
    decide
  · rw [hb]
    decide

/-- C8: a host reset from any phase (the handler has no phase guard)
clears category, coordinate, chameleonId, hints, votes and
accusations, sets the phase to lobby, and leaves the players sequence
unchanged — same players, same order. -/
theorem c8_host_reset (rooms : Rooms) (ws : Conn) (code : String) (room : Room)
    (hws : ws.roomCode = some code) (hget : getRoom rooms code = some room)
    (hhost : room.hostWs = some ws.id) :
    ((getRoom (R.handleHostReset rooms ws).1 code).map Room.players = some room.players)
    ∧ ((getRoom (R.handleHostReset rooms ws).1 code).map Room.state = some "lobby")
    ∧ ((getRoom (R.handleHostReset rooms ws).1 code).map Room.category = some none)
    ∧ ((getRoom (R.handleHostReset rooms ws).1 code).map Room.coord = some none)
    ∧ ((getRoom (R.handleHostReset rooms ws).1 code).map Room.chameleonId = some none)
    ∧ ((getRoom (R.handleHostReset rooms ws).1 code).map Room.hints = some [])
    ∧ ((getRoom (R.handleHostReset rooms ws).1 code).map Room.votes = some [])
    ∧ ((getRoom (R.handleHostReset rooms ws).1 code).map Room.accusations = some []) := by
  have hr : getRoom (R.handleHostReset rooms ws).1 code
      = some { room with
          state := "lobby", category := none, grid := none,
          coord := none, chameleonId := none,
          hints := [], votes := [], accusations := [] } := by
    unfold R.handleHostReset
    rw [hws]
    simp only [hget]
    rw [if_neg (show ¬((room.hostWs != some ws.id) = true) by simp [hhost])]
    exact getRoom_setRoom_self _ _ _
  rw [hr]
  refine ⟨rfl, rfl, rfl, rfl, rfl, rfl, rfl, rfl⟩

/-- C8 witness: resetting the concrete room mid-round returns it to
the lobby with its four players intact and the round state cleared. -/
theorem c8_witness :
    ((getRoom (R.handleHostReset exStart.1 exHost).1 "AAAA").map Room.players = some exPlayers4)
    ∧ ((getRoom (R.handleHostReset exStart.1 exHost).1 "AAAA").map Room.state = some "lobby")
    ∧ ((getRoom (R.handleHostReset exStart.1 exHost).1 "AAAA").map Room.chameleonId
      = some none) := by
  have h := c8_host_reset exStart.1 exHost "AAAA" exStartRoom (by decide) (by decide) (by decide)
  refine ⟨?_, h.2.1, h.2.2.2.2.1⟩
  rw [h.1]
  rfl

/-- C10: a second create_room from a connection already hosting a room
succeeds unconditionally (given the code generator produces a fresh
candidate): a fresh room is created and the connection rebound to it;
the previously created room stays in the store with its host reference
still pointing at this connection; and a later closure of the
connection cleans up only the most recently bound room — the new room
is deleted (its player list is empty, so nobody is notified) while the
old room survives, orphaned. -/
theorem c10_recreate (rooms : Rooms) (ws : Conn) (rnds : List (Nat → Nat))
    (c1 : String) (room1 nr : Room) (rs1 : Rooms)
    (hws : ws.roomCode = some c1) (hget : getRoom rooms c1 = some room1)
    (hhost : room1.hostWs = some ws.id)
    (hcr : createRoom rnds rooms = some (nr, rs1)) :
    handleCreate rooms ws rnds
      = some ( setRoom rs1 nr.code { nr with hostWs := some ws.id }
             , { ws with roomCode := some nr.code, role := some "host" }
             , [(ws.id, OutMsg.roomCreated nr.code)] )
    ∧ nr.code ≠ c1
    ∧ getRoom (setRoom rs1 nr.code { nr with hostWs := some ws.id }) c1 = some room1
    ∧ R.handleClose (setRoom rs1 nr.code { nr with hostWs := some ws.id })
        { ws with roomCode := some nr.code, role := some "host" }
      = (delRoom (setRoom rs1 nr.code { nr with hostWs := some ws.id }) nr.code, [])
    ∧ getRoom (delRoom (setRoom rs1 nr.code { nr with hostWs := some ws.id }) nr.code) c1
      = some room1
    ∧ hasRoom (delRoom (setRoom rs1 nr.code { nr with hostWs := some ws.id }) nr.code) nr.code
      = false := by
  obtain ⟨hfresh, _, _, hnew, hrs1⟩ := createRoom_spec rnds rooms nr rs1 hcr
  have hne : nr.code ≠ c1 := by
    intro he
    rw [he, hasRoom_of_getRoom rooms c1 room1 hget] at hfresh
    exact absurd hfresh (by simp)
  have hget1 : getRoom (setRoom rs1 nr.code { nr with hostWs := some ws.id }) c1 = some room1 := by
    rw [getRoom_setRoom_ne _ _ _ _ (Ne.symm hne), hrs1,
      getRoom_setRoom_ne _ _ _ _ (Ne.symm hne)]
    exact hget
  have hcreate : handleCreate rooms ws rnds
      = some ( setRoom rs1 nr.code { nr with hostWs := some ws.id }
             , { ws with roomCode := some nr.code, role := some "host" }
             , [(ws.id, OutMsg.roomCreated nr.code)] ) := by
    unfold handleCreate
    rw [hcr]
  have hclose : R.handleClose (setRoom rs1 nr.code { nr with hostWs := some ws.id })
        { ws with roomCode := some nr.code, role := some "host" }
      = (delRoom (setRoom rs1 nr.code { nr with hostWs := some ws.id }) nr.code, []) := by
    unfold R.handleClose
    simp only []
    rw [getRoom_setRoom_self]
    simp only []
    rw [if_pos (show (({ nr with hostWs := some ws.id } : Room).hostWs
        == some ({ ws with roomCode := some nr.code, role := some "host" } : Conn).id) = true
      by simp)]
    have hp : ({ nr with hostWs := some ws.id } : Room).players = [] := by
      rw [hnew]
      rfl
    rw [hp]
    rfl
  refine ⟨hcreate, hne, hget1, hclose, ?_, ?_⟩
  · rw [getRoom_delRoom_ne _ _ _ (Ne.symm hne)]
    exact hget1
  · exact hasRoom_delRoom_self _ _

/-- C10 witness: the host of room `AAAA` creates a second room `BBBB`;
the second create succeeds, and after the connection closes, room
`AAAA` is still stored (with the stale host reference) while `BBBB`
is gone. -/
theorem c10_witness :
    (handleCreate exCreated.1 exHost [fun _ => 1]).isSome = true
    ∧ getRoom (delRoom (setRoom (setRoom exCreated.1 "BBBB" (newRoom "BBBB")) "BBBB"
        { newRoom "BBBB" with hostWs := some "p1" }) "BBBB") "AAAA" = some exRoomA := by
  have h := c10_recreate exCreated.1 exHost [fun _ => 1] "AAAA" exRoomA (newRoom "BBBB")
    (setRoom exCreated.1 "BBBB" (newRoom "BBBB"))
    (by decide) (by decide) (by decide) (by rfl)
  constructor
  · rw [h.1]
    rfl
  · exact h.2.2.2.2.1

end Chameleon
